import Mathlib

/-!
Verification of the ARMv8-M vMPU core (`core/vmpu/src/mpu_armv8m/vmpu_armv8m.c`).

The C source is shallowly embedded below.  Machine integers are modelled as
`Nat` with an explicit `% 2^32` wherever 32-bit wraparound matters.  Global
mutable state (the active box, the region tables, the MPU slot cache, the
SRAM layout cursor) is made explicit: read-only configuration lives in a
`VmpuEnv` record and mutable state is threaded through the functions.
Helper routines of the repository that are declared but not part of the
translated file (region tables, the MPU slot cache, bit-band window macros,
alignment macros, CMSIS register addresses) are modelled from the
specification, each marked `Modelled from the spec:` in its doc comment.
-/

/-- 32-bit modulus: machine arithmetic in the source is on `uint32_t`. -/
def M32 : Nat := 2 ^ 32

/-- A static protection region, from the repository's `MpuRegion` structure:
half-open interval `[start, end)` plus an ACL word and a hardware-config
hint.  The C field `end` is a Lean keyword, rendered `end_`. -/
structure MpuRegion where
  start : Nat
  end_ : Nat
  acl : Nat
  config : Nat
deriving DecidableEq

/-- Modelled from the spec: the ACL word is an opaque packed bitfield of
user-read, user-write, user-execute, secure-execute and non-secure-callable
flags.  The concrete bit positions are irrelevant to every claim; distinct
bits are chosen. -/
def UVISOR_TACL_UEXECUTE : Nat := 1

/-- Modelled from the spec: user-write permission bit of the ACL word. -/
def UVISOR_TACL_UWRITE : Nat := 2

/-- Modelled from the spec: user-read permission bit of the ACL word. -/
def UVISOR_TACL_UREAD : Nat := 4

/-- Modelled from the spec: secure-execute permission bit of the ACL word. -/
def UVISOR_TACL_SEXECUTE : Nat := 8

/-- Modelled from the spec: default ACL word for a box stack region. -/
def UVISOR_TACLDEF_STACK : Nat := UVISOR_TACL_UREAD ||| UVISOR_TACL_UWRITE

/-- Modelled from the spec: default ACL word for a box bss/context region. -/
def UVISOR_TACLDEF_DATA : Nat := UVISOR_TACL_UREAD ||| UVISOR_TACL_UWRITE

/-- Modelled from the spec: address of the System Control Block's SCR
register (`&SCB->SCR`), `0xE000_ED10` as in scenario S3. -/
def SCB_SCR_ADDR : Nat := 0xE000ED10

/-- Modelled from the spec: start of the peripheral bit-band alias window of
the documented ARMv7/v8-M bit-band map (`VMPU_PERIPH_BITBAND_START`). -/
def VMPU_PERIPH_BITBAND_START : Nat := 0x42000000

/-- Modelled from the spec: last address of the peripheral bit-band alias
window (`VMPU_PERIPH_BITBAND_END`, inclusive as in the source comparison). -/
def VMPU_PERIPH_BITBAND_END : Nat := 0x43FFFFFF

/-- Modelled from the spec: start of the SRAM bit-band alias window
(`VMPU_SRAM_BITBAND_START`). -/
def VMPU_SRAM_BITBAND_START : Nat := 0x22000000

/-- Modelled from the spec: last address of the SRAM bit-band alias window
(`VMPU_SRAM_BITBAND_END`, inclusive). -/
def VMPU_SRAM_BITBAND_END : Nat := 0x23FFFFFF

/-- Modelled from the spec: the documented ARMv7/v8-M translation from a
peripheral bit-band alias address to the aliased physical address
(`VMPU_PERIPH_BITBAND_ALIAS_TO_ADDR`): each 32-byte-aligned alias word maps
one byte of the bit-band region starting at `0x4000_0000`. -/
def VMPU_PERIPH_BITBAND_ALIAS_TO_ADDR (alias_addr : Nat) : Nat :=
  (alias_addr - VMPU_PERIPH_BITBAND_START) / 32 + 0x40000000

/-- Modelled from the spec: the documented ARMv7/v8-M translation from an
SRAM bit-band alias address to the aliased physical address
(`VMPU_SRAM_BITBAND_ALIAS_TO_ADDR`). -/
def VMPU_SRAM_BITBAND_ALIAS_TO_ADDR (alias_addr : Nat) : Nat :=
  (alias_addr - VMPU_SRAM_BITBAND_START) / 32 + 0x20000000

/-- Read-only environment of the fault path: the active-box pointer
`g_active_box`, the per-box static region tables (component B) and the page
allocator's query interface (component D). -/
structure VmpuEnv where
  g_active_box : Nat
  boxes : Nat → List MpuRegion
  pageQuery : Nat → Option (Nat × Nat × Nat)
  activePages : List (Nat × Nat × Nat)

/-- A region covers an address when the address lies in `[start, end)`. -/
def regionCovers (r : MpuRegion) (addr : Nat) : Prop :=
  r.start ≤ addr ∧ addr < r.end_

instance (r : MpuRegion) (addr : Nat) : Decidable (regionCovers r addr) := by
  unfold regionCovers; infer_instance

/-- Modelled from the spec: `vmpu_region_find_for_address(box_id, addr)` is
a linear scan of the box's static regions returning the first covering
entry, `NULL` (here `none`) when no region covers the address. -/
def vmpu_region_find_for_address (env : VmpuEnv) (box_id : Nat) (addr : Nat) :
    Option MpuRegion :=
  (env.boxes box_id).find? (fun r => decide (regionCovers r addr))

/-- Modelled from the spec: `vmpu_region_get_for_box(box_id)` returns the
box's ordered region slice. -/
def vmpu_region_get_for_box (env : VmpuEnv) (box_id : Nat) : List MpuRegion :=
  env.boxes box_id

/-- `vmpu_fault_find_region` from the source: check the active box first
when it is not the public box, then the public box 0. -/
def vmpu_fault_find_region (env : VmpuEnv) (fault_addr : Nat) :
    Option MpuRegion :=
  match if env.g_active_box ≠ 0 then
          vmpu_region_find_for_address env env.g_active_box fault_addr
        else none with
  | some region => some region
  | none => vmpu_region_find_for_address env 0 fault_addr

/-- `vmpu_fault_find_acl` from the source: SCR special case first, then
bit-band alias translation, then region lookup and the size-containment
check.  The comparison `fault_addr + size > region->end` is on `uint32_t`,
hence the `% M32`. -/
def vmpu_fault_find_acl (env : VmpuEnv) (fault_addr : Nat) (size : Nat) :
    Nat :=
  if fault_addr = SCB_SCR_ADDR then
    UVISOR_TACL_UWRITE ||| UVISOR_TACL_UREAD
  else
    let addr :=
      if VMPU_PERIPH_BITBAND_START ≤ fault_addr ∧
         fault_addr ≤ VMPU_PERIPH_BITBAND_END then
        VMPU_PERIPH_BITBAND_ALIAS_TO_ADDR fault_addr
      else if VMPU_SRAM_BITBAND_START ≤ fault_addr ∧
              fault_addr ≤ VMPU_SRAM_BITBAND_END then
        VMPU_SRAM_BITBAND_ALIAS_TO_ADDR fault_addr
      else fault_addr
    match vmpu_fault_find_region env addr with
    | none => 0
    | some region =>
        if region.end_ < (addr + size) % M32 then 0 else region.acl

/-- Modelled from the spec: state of the MPU slot cache (component C).
`staticSlots` are the init-only static entries; `dynSlots` is the fixed pool
of dynamic slots (`none` when a slot is invalidated); `cursor` is the
free-running round-robin push counter of the current batch — the slot
written next is `cursor % dynSlots.length`, and the cursor has wrapped once
already exactly when `dynSlots.length ≤ cursor`. -/
structure MpuState where
  staticSlots : List (MpuRegion × Nat)
  dynSlots : List (Option (MpuRegion × Nat))
  cursor : Nat
deriving DecidableEq

/-- Modelled from the spec: `vmpu_mpu_push(region, priority)` writes the
region into the next dynamic slot under the round-robin cursor and returns
`false` iff the cursor has wrapped once already during the current batch
(`true` on the wrap transition itself). -/
def vmpu_mpu_push (s : MpuState) (region : MpuRegion) (priority : Nat) :
    Bool × MpuState :=
  (decide (s.cursor < s.dynSlots.length),
   { s with
     dynSlots := s.dynSlots.set (s.cursor % s.dynSlots.length)
                   (some (region, priority)),
     cursor := s.cursor + 1 })

/-- Modelled from the spec: `vmpu_mpu_invalidate()` clears all dynamic slots
(the static slots are untouched) and starts a new round-robin batch. -/
def vmpu_mpu_invalidate (s : MpuState) : MpuState :=
  { s with
    dynSlots := List.replicate s.dynSlots.length none,
    cursor := 0 }

/-- `vmpu_mem_push_page_acl_iterator` from the source: push a page-heap
region (`config = 1`, other fields zero-initialised) at page priority 100
and report whether the MPU slots have not wrapped yet. -/
def vmpu_mem_push_page_acl_iterator (start_addr end_addr : Nat)
    (_page : Nat) (s : MpuState) : Bool × MpuState :=
  let region : MpuRegion :=
    { start := start_addr, end_ := end_addr, acl := 0, config := 1 }
  vmpu_mpu_push s region 100

/-- Modelled from the spec: `page_allocator_iterate_active_pages` of the
external page allocator visits each active page in forward order and stops
when the visitor returns zero. -/
def page_allocator_iterate_active_pages :
    List (Nat × Nat × Nat) → MpuState → MpuState
  | [], s => s
  | (start_addr, end_addr, page) :: rest, s =>
    let r := vmpu_mem_push_page_acl_iterator start_addr end_addr page s
    if r.1 then page_allocator_iterate_active_pages rest r.2 else r.2

/-- Result of `vmpu_fault_recovery_mpu`: the C `int` return value, the new
MPU slot-cache state, and the page faults registered with the allocator. -/
structure RecoveryResult where
  recovered : Nat
  mpu : MpuState
  registeredFaults : List Nat
deriving DecidableEq

/-- `vmpu_fault_recovery_mpu` from the source: if the faulting address lies
in an active allocator page, register the fault and push a page region;
otherwise push the covering region of the active or public box, if any.
`pc`, `sp` and `fault_status` are accepted and ignored as in the source. -/
def vmpu_fault_recovery_mpu (env : VmpuEnv) (s : MpuState)
    (_pc _sp : Nat) (fault_addr : Nat) (_fault_status : Nat) :
    RecoveryResult :=
  match env.pageQuery fault_addr with
  | some (start_addr, end_addr, page) =>
    ⟨1, (vmpu_mem_push_page_acl_iterator start_addr end_addr
           env.g_active_box s).2, [page]⟩
  | none =>
    match vmpu_fault_find_region env fault_addr with
    | none => ⟨0, s, []⟩
    | some region => ⟨1, (vmpu_mpu_push s region 3).2, []⟩

/-- Push a list of regions at one priority, stopping when `vmpu_mpu_push`
returns false — the shape of the source's
`while (dst_count-- && vmpu_mpu_push(region++, prio));` loops. -/
def vmpu_push_list (regions : List MpuRegion) (priority : Nat)
    (s : MpuState) : MpuState :=
  match regions with
  | [] => s
  | region :: rest =>
    let r := vmpu_mpu_push s region priority
    if r.1 then vmpu_push_list rest priority r.2 else r.2

/-- `vmpu_switch` from the source: invalidate the dynamic slots; for a
non-public destination push its first (stack/context) region at priority
255; push the active allocator pages at priority 100; push the remaining
destination regions at priority 2; for the public destination push the
box-0 regions at priority 1.  The source assumes validated inputs, so a
non-public box's region slice is non-empty (invariant I2); the empty slice
is mapped to a no-op here. -/
def vmpu_switch (env : VmpuEnv) (_src_box dst_box : Nat) (s : MpuState) :
    MpuState :=
  let s1 := vmpu_mpu_invalidate s
  if dst_box ≠ 0 then
    match vmpu_region_get_for_box env dst_box with
    | [] => page_allocator_iterate_active_pages env.activePages s1
    | region :: rest =>
      let s2 := (vmpu_mpu_push s1 region 255).2
      let s3 := page_allocator_iterate_active_pages env.activePages s2
      vmpu_push_list rest 2 s3
  else
    let s3 := page_allocator_iterate_active_pages env.activePages s1
    vmpu_push_list (vmpu_region_get_for_box env 0) 1 s3

/-- Modelled from the spec: `NVIC_OFFSET`, the offset between the IPSR
interrupt number (counting from 0) and the signed `*_IRQn` encoding. -/
def NVIC_OFFSET : Int := 16

/-- Modelled from the spec: CMSIS system-exception number of the
non-maskable interrupt. -/
def NonMaskableInt_IRQn : Int := -14

/-- Modelled from the spec: CMSIS system-exception number of HardFault. -/
def HardFault_IRQn : Int := -13

/-- Modelled from the spec: CMSIS system-exception number of MemManage. -/
def MemoryManagement_IRQn : Int := -12

/-- Modelled from the spec: CMSIS system-exception number of BusFault. -/
def BusFault_IRQn : Int := -11

/-- Modelled from the spec: CMSIS system-exception number of UsageFault. -/
def UsageFault_IRQn : Int := -10

/-- Modelled from the spec: CMSIS system-exception number of SecureFault. -/
def SecureFault_IRQn : Int := -9

/-- Modelled from the spec: CMSIS system-exception number of SVCall. -/
def SVCall_IRQn : Int := -5

/-- Modelled from the spec: CMSIS system-exception number of DebugMonitor. -/
def DebugMonitor_IRQn : Int := -4

/-- Modelled from the spec: CMSIS system-exception number of PendSV. -/
def PendSV_IRQn : Int := -2

/-- Modelled from the spec: CMSIS system-exception number of SysTick. -/
def SysTick_IRQn : Int := -1

/-- Modelled from the spec: `SAU->SFSR` auto-violation flag
(`SAU_SFSR_AUVIOL_Msk`, bit 3 of the Secure Fault Status Register). -/
def SAU_SFSR_AUVIOL_Msk : Nat := 8

/-- Modelled from the spec: `SAU->SFSR` SFAR-valid flag
(`SAU_SFSR_SFARVALID_Msk`, bit 6 of the Secure Fault Status Register). -/
def SAU_SFSR_SFARVALID_Msk : Nat := 64

/-- Fault descriptors that `DEBUG_FAULT` can log. -/
inductive FaultKind
  | hard
  | memmanage
  | bus
  | usage
  | secure
  | debug
deriving DecidableEq

/-- Error codes passed to `HALT_ERROR`. -/
inductive HaltCode
  | NOT_IMPLEMENTED
  | FAULT_HARD
  | FAULT_MEMMANAGE
  | FAULT_BUS
  | FAULT_USAGE
  | PERMISSION_DENIED
  | FAULT_DEBUG
  | NOT_ALLOWED
deriving DecidableEq

/-- Outcome of `vmpu_sys_mux_handler`: either return an exception-return
value (with the value written to `SAU->SFSR`, if any), or halt after
optionally logging a fault descriptor — `HALT_ERROR` never returns. -/
inductive SysMuxResult
  | ret (lr : Nat) (sfsrWrite : Option Nat)
  | halt (logged : Option FaultKind) (code : HaltCode)
deriving DecidableEq

/-- Full effect of one `vmpu_sys_mux_handler` invocation: the control-flow
result, the MPU slot-cache state afterwards, whether the fault-recovery
routine was invoked, and the page faults registered with the allocator. -/
structure SysMuxState where
  result : SysMuxResult
  mpu : MpuState
  attemptedRecovery : Bool
  registeredFaults : List Nat
deriving DecidableEq

/-- Modelled from the spec: the driver selects among the four stack pointers
(secure/non-secure, MSP/PSP) using the exception-return value's S (bit 6),
mode (bit 3) and SPSEL (bit 2) bits, exactly as the source's nested
conditional over `EXC_FROM_S`, `EXC_FROM_NP` and `EXC_FROM_PSP`. -/
def vmpu_sys_mux_sp (lr msp_s psp_s msp_ns psp_ns : Nat) : Nat :=
  if lr.testBit 6 then
    if lr.testBit 3 then (if lr.testBit 2 then psp_s else msp_s) else msp_s
  else
    if lr.testBit 3 then (if lr.testBit 2 then psp_ns else msp_ns) else msp_ns

/-- Modelled from the spec: the SFSR status bits are write-one-to-clear, so
a hardware register write of `written` turns the old value `old` into the
bits of `old` outside `written`. -/
def sfsrAfterWrite (old written : Nat) : Nat :=
  old &&& (written ^^^ (M32 - 1))

/-- `vmpu_sys_mux_handler` from the source: classify the exception from the
IPSR value, derive the interrupted stack pointer from the exception-return
bits, and dispatch.  Hardware register reads are passed in: `ipsr_reg` is
`__get_IPSR()`, `sfsr` is `SAU->SFSR`, `sfar` is `SAU->SFAR`, the four
stack-pointer registers, and `readMem` models `vmpu_unpriv_uint32_read`. -/
def vmpu_sys_mux_handler (env : VmpuEnv) (s : MpuState)
    (ipsr_reg sfsr sfar : Nat) (readMem : Nat → Nat)
    (psp_s msp_ns psp_ns : Nat) (lr msp_s : Nat) : SysMuxState :=
  let ipsr : Int := (Int.ofNat (ipsr_reg &&& 0x1FF)) - NVIC_OFFSET
  let sp := vmpu_sys_mux_sp lr msp_s psp_s msp_ns psp_ns
  if ipsr = NonMaskableInt_IRQn then
    ⟨.halt none .NOT_IMPLEMENTED, s, false, []⟩
  else if ipsr = HardFault_IRQn then
    ⟨.halt (some .hard) .FAULT_HARD, s, false, []⟩
  else if ipsr = MemoryManagement_IRQn then
    ⟨.halt (some .memmanage) .FAULT_MEMMANAGE, s, false, []⟩
  else if ipsr = BusFault_IRQn then
    ⟨.halt (some .bus) .FAULT_BUS, s, false, []⟩
  else if ipsr = UsageFault_IRQn then
    ⟨.halt (some .usage) .FAULT_USAGE, s, false, []⟩
  else if ipsr = SecureFault_IRQn then
    let fault_status := sfsr
    if fault_status &&& (SAU_SFSR_AUVIOL_Msk ||| SAU_SFSR_SFARVALID_Msk) =
        SAU_SFSR_AUVIOL_Msk ||| SAU_SFSR_SFARVALID_Msk then
      let pc := readMem ((sp + 6 * 4) % M32)
      let fault_addr := sfar
      let rec_ := vmpu_fault_recovery_mpu env s pc sp fault_addr fault_status
      if rec_.recovered ≠ 0 then
        ⟨.ret lr (some fault_status), rec_.mpu, true, rec_.registeredFaults⟩
      else
        ⟨.halt (some .secure) .PERMISSION_DENIED, rec_.mpu, true,
         rec_.registeredFaults⟩
    else
      ⟨.halt (some .secure) .PERMISSION_DENIED, s, false, []⟩
  else if ipsr = SVCall_IRQn then
    ⟨.halt none .NOT_IMPLEMENTED, s, false, []⟩
  else if ipsr = DebugMonitor_IRQn then
    ⟨.halt (some .debug) .FAULT_DEBUG, s, false, []⟩
  else if ipsr = PendSV_IRQn then
    ⟨.halt none .NOT_IMPLEMENTED, s, false, []⟩
  else if ipsr = SysTick_IRQn then
    ⟨.halt none .NOT_IMPLEMENTED, s, false, []⟩
  else
    ⟨.halt none .NOT_ALLOWED, s, false, []⟩

/-- Modelled from the spec: `UVISOR_STACK_BAND_SIZE`, the guard band placed
around stack and bss extents — the spec's scenarios fix `GUARD = 32`. -/
def UVISOR_STACK_BAND_SIZE : Nat := 32

/-- Modelled from the spec: the minimum stack floor that
`UVISOR_MIN_STACK` enforces. -/
def UVISOR_MIN_STACK_SIZE : Nat := 1024

/-- Modelled from the spec: `UVISOR_MIN_STACK(x)` raises a requested stack
size to at least the minimum stack floor. -/
def UVISOR_MIN_STACK (x : Nat) : Nat := max x UVISOR_MIN_STACK_SIZE

/-- Modelled from the spec: `UVISOR_REGION_ROUND_UP(x)` rounds up to the
32-byte architectural alignment: on `uint32_t`, add 31 and clear the five
low bits (clearing low bits of `y` is `y - y % 32`). -/
def UVISOR_REGION_ROUND_UP (x : Nat) : Nat :=
  (x + 31) % M32 - (x + 31) % M32 % 32

/-- Wrap-free companion of `UVISOR_REGION_ROUND_UP` over unbounded `Nat`,
used to state the no-overflow side conditions. -/
def regionRoundUpN (x : Nat) : Nat :=
  (x + 31) - (x + 31) % 32

/-- An extent recorded by `vmpu_region_add_static_acl`: the owning box, the
start address, the (rounded) size and the ACL word. -/
structure SramAcl where
  box : Nat
  start : Nat
  size : Nat
  acl : Nat
deriving DecidableEq

/-- State of the SRAM layout stage (component H): the cursor
`g_box_mem_pos` (0 before first use, as in the source's static local) and
the static ACLs recorded so far via `vmpu_region_add_static_acl`. -/
structure SramState where
  pos : Nat
  acls : List SramAcl
deriving DecidableEq

/-- Return of one `vmpu_acl_sram` call: the new layout state plus the two
out-parameters `*bss_start` and `*stack_pointer`. -/
structure SramResult where
  st : SramState
  bss_start : Nat
  stack_pointer : Nat
deriving DecidableEq

/-- `vmpu_acl_sram` from the source, on `uint32_t` arithmetic: initialise
the cursor on first use from the rounded `bss_boxes_start` plus one guard
band; round the stack size up; record the stack ACL; return the stack top;
skip a guard band; record the bss ACL; advance past bss plus a guard band.
`cfg_bss_boxes_start` is the linker symbol `__uvisor_config.bss_boxes_start`. -/
def vmpu_acl_sram (cfg_bss_boxes_start : Nat) (box_id : Nat)
    (bss_size stack_size : Nat) (s : SramState) : SramResult :=
  let pos0 :=
    if s.pos = 0 then
      (UVISOR_REGION_ROUND_UP cfg_bss_boxes_start + UVISOR_STACK_BAND_SIZE)
        % M32
    else s.pos
  let stack_size := UVISOR_REGION_ROUND_UP (UVISOR_MIN_STACK stack_size)
  let stackAcl : SramAcl := ⟨box_id, pos0, stack_size, UVISOR_TACLDEF_STACK⟩
  let pos1 := (pos0 + stack_size) % M32
  let stack_pointer := pos1
  let pos2 := (pos1 + UVISOR_STACK_BAND_SIZE) % M32
  let bss_size := UVISOR_REGION_ROUND_UP bss_size
  let bss_start := pos2
  let bssAcl : SramAcl := ⟨box_id, pos2, bss_size, UVISOR_TACLDEF_DATA⟩
  let pos3 := (pos2 + bss_size + UVISOR_STACK_BAND_SIZE) % M32
  ⟨⟨pos3, s.acls ++ [stackAcl, bssAcl]⟩, bss_start, stack_pointer⟩

/-- Wrap-free companion of `vmpu_acl_sram` over unbounded `Nat`: identical
computation without the `% M32` reductions.  It is used to express the
no-overflow side condition of the layout invariants and is proved to agree
with `vmpu_acl_sram` whenever its final cursor stays below `2^32`. -/
def vmpu_acl_sramN (cfg_bss_boxes_start : Nat) (box_id : Nat)
    (bss_size stack_size : Nat) (s : SramState) : SramResult :=
  let pos0 :=
    if s.pos = 0 then
      regionRoundUpN cfg_bss_boxes_start + UVISOR_STACK_BAND_SIZE
    else s.pos
  let stack_size := regionRoundUpN (UVISOR_MIN_STACK stack_size)
  let stackAcl : SramAcl := ⟨box_id, pos0, stack_size, UVISOR_TACLDEF_STACK⟩
  let pos1 := pos0 + stack_size
  let stack_pointer := pos1
  let pos2 := pos1 + UVISOR_STACK_BAND_SIZE
  let bss_size := regionRoundUpN bss_size
  let bss_start := pos2
  let bssAcl : SramAcl := ⟨box_id, pos2, bss_size, UVISOR_TACLDEF_DATA⟩
  let pos3 := pos2 + bss_size + UVISOR_STACK_BAND_SIZE
  ⟨⟨pos3, s.acls ++ [stackAcl, bssAcl]⟩, bss_start, stack_pointer⟩

/-- Run a sequence of `vmpu_acl_sram` calls, each given as
`(box_id, bss_size, stack_size)`, threading the layout state. -/
def runSram (cfg : Nat) (calls : List (Nat × Nat × Nat)) (s : SramState) :
    SramState :=
  calls.foldl (fun s c => (vmpu_acl_sram cfg c.1 c.2.1 c.2.2 s).st) s

/-- Run a sequence of wrap-free `vmpu_acl_sramN` calls. -/
def runSramN (cfg : Nat) (calls : List (Nat × Nat × Nat)) (s : SramState) :
    SramState :=
  calls.foldl (fun s c => (vmpu_acl_sramN cfg c.1 c.2.1 c.2.2 s).st) s

/-- Invariant I1, per box: the region intervals of one box are pairwise
disjoint. -/
def regionsDisjoint (l : List MpuRegion) : Prop :=
  l.Pairwise fun r1 r2 => r1.end_ ≤ r2.start ∨ r2.end_ ≤ r1.start

instance (l : List MpuRegion) : Decidable (regionsDisjoint l) := by
  unfold regionsDisjoint; infer_instance

/-- In a disjoint region list, the first covering entry found by the linear
scan is the (unique) covering region. -/
lemma find_first_cover {a : Nat} {R : MpuRegion} :
    ∀ {l : List MpuRegion}, regionsDisjoint l → R ∈ l → regionCovers R a →
      l.find? (fun r => decide (regionCovers r a)) = some R := by
  intro l
  induction l with
  | nil => intro _ h; cases h
  | cons r rs ih =>
    intro hd hm hc
    have hd' := (List.pairwise_cons.mp hd)
    by_cases hr : regionCovers r a
    · have hrR : r = R := by
        rcases List.mem_cons.mp hm with h | h
        · exact h.symm
        · rcases hd'.1 R h with hle | hle <;>
            (unfold regionCovers at hr hc; omega)
      rw [List.find?_cons_of_pos _ (by simpa using hr), hrR]
    · have hmR : R ∈ rs := by
        rcases List.mem_cons.mp hm with h | h
        · exact absurd (h ▸ hc) hr
        · exact h
      rw [List.find?_cons_of_neg _ (by simpa using hr)]
      exact ih hd'.2 hmR hc

/-- The linear scan finds nothing when no region of the box covers the
address. -/
lemma find_none_of_no_cover {a : Nat} {l : List MpuRegion}
    (h : ∀ r ∈ l, ¬ regionCovers r a) :
    l.find? (fun r => decide (regionCovers r a)) = none := by
  apply List.find?_eq_none.mpr
  intro r hr
  simpa using h r hr

/-- Claim C10: when the queried address equals the SCR register's address,
`vmpu_fault_find_acl` returns `UVISOR_TACL_UWRITE ||| UVISOR_TACL_UREAD`
for every size and every configuration: the SCR special case is decided
before bit-band translation, region lookup and the size-containment check. -/
theorem vmpu_fault_find_acl_scr (env : VmpuEnv) (size : Nat) :
    vmpu_fault_find_acl env SCB_SCR_ADDR size =
      UVISOR_TACL_UWRITE ||| UVISOR_TACL_UREAD := by
  unfold vmpu_fault_find_acl
  simp

/-- Claim C8: for an address in the peripheral bit-band alias window whose
physical translation lies outside both alias windows and is not the SCR
address, `vmpu_fault_find_acl(a, 4)` equals
`vmpu_fault_find_acl(bitband_to_addr(a), 4)`: the lookup translates the
alias arithmetically before consulting the region tables. -/
theorem vmpu_fault_find_acl_bitband (env : VmpuEnv) (a : Nat)
    (h1 : VMPU_PERIPH_BITBAND_START ≤ a) (h2 : a ≤ VMPU_PERIPH_BITBAND_END)
    (h3 : ¬ (VMPU_PERIPH_BITBAND_START ≤ VMPU_PERIPH_BITBAND_ALIAS_TO_ADDR a ∧
             VMPU_PERIPH_BITBAND_ALIAS_TO_ADDR a ≤ VMPU_PERIPH_BITBAND_END))
    (h4 : ¬ (VMPU_SRAM_BITBAND_START ≤ VMPU_PERIPH_BITBAND_ALIAS_TO_ADDR a ∧
             VMPU_PERIPH_BITBAND_ALIAS_TO_ADDR a ≤ VMPU_SRAM_BITBAND_END))
    (h5 : VMPU_PERIPH_BITBAND_ALIAS_TO_ADDR a ≠ SCB_SCR_ADDR) :
    vmpu_fault_find_acl env a 4 =
      vmpu_fault_find_acl env (VMPU_PERIPH_BITBAND_ALIAS_TO_ADDR a) 4 := by
  have ha : a ≠ SCB_SCR_ADDR := by
    unfold VMPU_PERIPH_BITBAND_END at h2
    unfold SCB_SCR_ADDR
    omega
  unfold vmpu_fault_find_acl
  rw [if_neg ha, if_neg h5, if_pos ⟨h1, h2⟩, if_neg h3, if_neg h4]

/-- Witness for C8 at the first peripheral alias word `0x4200_0000`, whose
translation is `0x4000_0000`. -/
theorem vmpu_fault_find_acl_bitband_witness :
    vmpu_fault_find_acl ⟨0, fun _ => [], fun _ => none, []⟩ 0x42000000 4 =
      vmpu_fault_find_acl ⟨0, fun _ => [], fun _ => none, []⟩
        (VMPU_PERIPH_BITBAND_ALIAS_TO_ADDR 0x42000000) 4 :=
  vmpu_fault_find_acl_bitband ⟨0, fun _ => [], fun _ => none, []⟩ 0x42000000
    (by decide) (by decide) (by decide) (by decide) (by decide)

/-- Claim C2: with the SCR special case and the bit-band windows excluded,
`vmpu_fault_find_acl` returns 0 both when no region of the active box or of
the public box covers the address and when the first covering region found
does not contain the whole access `[a, a + size)`. -/
theorem vmpu_fault_find_acl_denied (env : VmpuEnv) (a size : Nat)
    (hscr : a ≠ SCB_SCR_ADDR)
    (hp : ¬ (VMPU_PERIPH_BITBAND_START ≤ a ∧ a ≤ VMPU_PERIPH_BITBAND_END))
    (hs : ¬ (VMPU_SRAM_BITBAND_START ≤ a ∧ a ≤ VMPU_SRAM_BITBAND_END)) :
    ((∀ r ∈ env.boxes env.g_active_box, ¬ regionCovers r a) →
     (∀ r ∈ env.boxes 0, ¬ regionCovers r a) →
     vmpu_fault_find_acl env a size = 0) ∧
    (∀ R, vmpu_fault_find_region env a = some R → a + size < M32 →
      R.end_ < a + size → vmpu_fault_find_acl env a size = 0) := by
  constructor
  · intro hact hpub
    have hreg : vmpu_fault_find_region env a = none := by
      unfold vmpu_fault_find_region vmpu_region_find_for_address
      rw [find_none_of_no_cover hpub]
      by_cases hb : env.g_active_box ≠ 0
      · rw [if_pos hb, find_none_of_no_cover hact]
      · rw [if_neg hb]
    unfold vmpu_fault_find_acl
    rw [if_neg hscr, if_neg hp, if_neg hs]
    dsimp only
    rw [hreg]
  · intro R hfind hlt hend
    unfold vmpu_fault_find_acl
    rw [if_neg hscr, if_neg hp, if_neg hs]
    dsimp only
    rw [hfind]
    dsimp only
    rw [if_pos]
    rw [Nat.mod_eq_of_lt hlt]
    exact hend

/-- Witness for C2: address `0x5000_0000` (scenario S5) is covered by no
region of either box, and a size overrunning a covering region is denied. -/
theorem vmpu_fault_find_acl_denied_witness :
    vmpu_fault_find_acl
      ⟨1, fun b => if b = 1 then [⟨0x30000000, 0x30000010, 7, 0⟩] else [],
       fun _ => none, []⟩ 0x50000000 4 = 0 ∧
    vmpu_fault_find_acl
      ⟨1, fun b => if b = 1 then [⟨0x30000000, 0x30000010, 7, 0⟩] else [],
       fun _ => none, []⟩ 0x30000008 0x10 = 0 :=
  ⟨(vmpu_fault_find_acl_denied
      ⟨1, fun b => if b = 1 then [⟨0x30000000, 0x30000010, 7, 0⟩] else [],
       fun _ => none, []⟩ 0x50000000 4
      (by decide) (by decide) (by decide)).1 (by decide) (by decide),
   (vmpu_fault_find_acl_denied
      ⟨1, fun b => if b = 1 then [⟨0x30000000, 0x30000010, 7, 0⟩] else [],
       fun _ => none, []⟩ 0x30000008 0x10
      (by decide) (by decide) (by decide)).2 ⟨0x30000000, 0x30000010, 7, 0⟩
      (by decide) (by decide) (by decide)⟩

/-- Counterexample to C1 as stated: regions of different boxes may overlap
even when each box's regions are disjoint (I1), and the active box is
searched first.  Here the public box-0 region `R = [0x3000_0000,
0x3000_0010)` with ACL 7 contains the access `[0x3000_0000, 0x3000_0010)`,
yet the lookup finds the overlapping active-box region `[0x3000_0000,
0x3000_0008)` first, fails the size check and returns 0, not `R.acl`. -/
theorem vmpu_fault_find_acl_cross_box_counterexample :
    regionsDisjoint ((fun b => if b = 1 then
        [(⟨0x30000000, 0x30000008, 5, 0⟩ : MpuRegion)]
      else if b = 0 then [⟨0x30000000, 0x30000010, 7, 0⟩] else []) 1) ∧
    regionsDisjoint ((fun b => if b = 1 then
        [(⟨0x30000000, 0x30000008, 5, 0⟩ : MpuRegion)]
      else if b = 0 then [⟨0x30000000, 0x30000010, 7, 0⟩] else []) 0) ∧
    (⟨0x30000000, 0x30000010, 7, 0⟩ : MpuRegion) ∈
      ((fun b => if b = 1 then [(⟨0x30000000, 0x30000008, 5, 0⟩ : MpuRegion)]
        else if b = 0 then [⟨0x30000000, 0x30000010, 7, 0⟩] else []) 0) ∧
    regionCovers ⟨0x30000000, 0x30000010, 7, 0⟩ 0x30000000 ∧
    0x30000000 + 0x10 ≤ (⟨0x30000000, 0x30000010, 7, 0⟩ : MpuRegion).end_ ∧
    (0x30000000 : Nat) ≠ SCB_SCR_ADDR ∧
    ¬ (VMPU_PERIPH_BITBAND_START ≤ 0x30000000 ∧
       (0x30000000 : Nat) ≤ VMPU_PERIPH_BITBAND_END) ∧
    ¬ (VMPU_SRAM_BITBAND_START ≤ 0x30000000 ∧
       (0x30000000 : Nat) ≤ VMPU_SRAM_BITBAND_END) ∧
    vmpu_fault_find_acl
      ⟨1, fun b => if b = 1 then [⟨0x30000000, 0x30000008, 5, 0⟩]
          else if b = 0 then [⟨0x30000000, 0x30000010, 7, 0⟩] else [],
       fun _ => none, []⟩ 0x30000000 0x10 = 0 ∧
    (⟨0x30000000, 0x30000010, 7, 0⟩ : MpuRegion).acl = 7 := by
  decide

/-- Claim C1 (amended): for a region `R` of the active box, or of the
public box 0 provided no active-box region covers the address, with the
regions of each box disjoint (I1), every address `a` in `[R.start, R.end)`
with `a + size ≤ R.end` (and `a` neither the SCR address nor inside a
bit-band alias window) makes `vmpu_fault_find_acl(a, size)` return
`R.acl`. -/
theorem vmpu_fault_find_acl_hit (env : VmpuEnv) (R : MpuRegion)
    (a size : Nat)
    (hd1 : regionsDisjoint (env.boxes env.g_active_box))
    (hd0 : regionsDisjoint (env.boxes 0))
    (hmem : R ∈ env.boxes env.g_active_box ∨
      (R ∈ env.boxes 0 ∧ ∀ r ∈ env.boxes env.g_active_box,
        ¬ regionCovers r a))
    (hscr : a ≠ SCB_SCR_ADDR)
    (hp : ¬ (VMPU_PERIPH_BITBAND_START ≤ a ∧ a ≤ VMPU_PERIPH_BITBAND_END))
    (hs : ¬ (VMPU_SRAM_BITBAND_START ≤ a ∧ a ≤ VMPU_SRAM_BITBAND_END))
    (hcov : regionCovers R a) (hsize : a + size ≤ R.end_) :
    vmpu_fault_find_acl env a size = R.acl := by
  have hreg : vmpu_fault_find_region env a = some R := by
    unfold vmpu_fault_find_region vmpu_region_find_for_address
    by_cases hb : env.g_active_box ≠ 0
    · rw [if_pos hb]
      rcases hmem with hact | ⟨hpub, hno⟩
      · rw [find_first_cover hd1 hact hcov]
      · rw [find_none_of_no_cover hno, find_first_cover hd0 hpub hcov]
    · rw [if_neg hb]
      push_neg at hb
      rcases hmem with hact | ⟨hpub, _⟩
      · rw [hb] at hact
        rw [find_first_cover hd0 hact hcov]
      · rw [find_first_cover hd0 hpub hcov]
  have hmod : (a + size) % M32 ≤ R.end_ :=
    le_trans (Nat.mod_le _ _) hsize
  unfold vmpu_fault_find_acl
  rw [if_neg hscr, if_neg hp, if_neg hs]
  dsimp only
  rw [hreg]
  dsimp only
  rw [if_neg (by omega)]

/-- Witness for the amended C1: a region of the active box is found with
its ACL. -/
theorem vmpu_fault_find_acl_hit_witness :
    vmpu_fault_find_acl
      ⟨1, fun b => if b = 1 then [⟨0x30000000, 0x30000010, 7, 0⟩] else [],
       fun _ => none, []⟩ 0x30000004 4 = 7 :=
  vmpu_fault_find_acl_hit
    ⟨1, fun b => if b = 1 then [⟨0x30000000, 0x30000010, 7, 0⟩] else [],
     fun _ => none, []⟩ ⟨0x30000000, 0x30000010, 7, 0⟩ 0x30000004 4
    (by decide) (by decide) (Or.inl (by decide)) (by decide) (by decide)
    (by decide) (by decide) (by decide)

/-- Counterexample to C4 as stated: `vmpu_fault_recovery_mpu` has no SCR
special case.  Given the SCR address with no active page and no covering
region it returns 0 (not recovered) and installs nothing, instead of
synthesising a user read+write ACL and recovering. -/
theorem vmpu_fault_recovery_mpu_scr_counterexample :
    (vmpu_fault_recovery_mpu ⟨0, fun _ => [], fun _ => none, []⟩
        ⟨[], [none, none, none, none], 0⟩ 0 0 SCB_SCR_ADDR 0).recovered
      = 0 ∧
    (vmpu_fault_recovery_mpu ⟨0, fun _ => [], fun _ => none, []⟩
        ⟨[], [none, none, none, none], 0⟩ 0 0 SCB_SCR_ADDR 0).mpu
      = ⟨[], [none, none, none, none], 0⟩ ∧
    (vmpu_fault_recovery_mpu ⟨0, fun _ => [], fun _ => none, []⟩
        ⟨[], [none, none, none, none], 0⟩ 0 0 SCB_SCR_ADDR 0).registeredFaults
      = [] := by
  decide

/-- Claim C4 (amended): the SCR special case lives in `vmpu_fault_find_acl`,
which synthesises user read+write for the SCR address, not in
`vmpu_fault_recovery_mpu`: the recovery routine treats the SCR address like
any other, recovering only via an active page or a covering region, and
returns not-recovered with the slot cache untouched when neither exists. -/
theorem vmpu_fault_recovery_mpu_no_scr_case (env : VmpuEnv) (s : MpuState)
    (pc sp fault_status size : Nat)
    (hpage : env.pageQuery SCB_SCR_ADDR = none)
    (hreg : vmpu_fault_find_region env SCB_SCR_ADDR = none) :
    (vmpu_fault_recovery_mpu env s pc sp SCB_SCR_ADDR
        fault_status).recovered = 0 ∧
    (vmpu_fault_recovery_mpu env s pc sp SCB_SCR_ADDR fault_status).mpu = s ∧
    (vmpu_fault_recovery_mpu env s pc sp SCB_SCR_ADDR
        fault_status).registeredFaults = [] ∧
    vmpu_fault_find_acl env SCB_SCR_ADDR size =
      UVISOR_TACL_UWRITE ||| UVISOR_TACL_UREAD := by
  unfold vmpu_fault_recovery_mpu
  rw [hpage, hreg]
  refine ⟨rfl, rfl, rfl, ?_⟩
  unfold vmpu_fault_find_acl
  simp

/-- Witness for the amended C4 on a concrete empty configuration. -/
theorem vmpu_fault_recovery_mpu_no_scr_case_witness :
    (vmpu_fault_recovery_mpu ⟨2, fun _ => [], fun _ => none, []⟩
        ⟨[], [none, none], 0⟩ 11 22 SCB_SCR_ADDR 33).recovered = 0 ∧
    (vmpu_fault_recovery_mpu ⟨2, fun _ => [], fun _ => none, []⟩
        ⟨[], [none, none], 0⟩ 11 22 SCB_SCR_ADDR 33).mpu
      = ⟨[], [none, none], 0⟩ ∧
    (vmpu_fault_recovery_mpu ⟨2, fun _ => [], fun _ => none, []⟩
        ⟨[], [none, none], 0⟩ 11 22 SCB_SCR_ADDR 33).registeredFaults = [] ∧
    vmpu_fault_find_acl ⟨2, fun _ => [], fun _ => none, []⟩ SCB_SCR_ADDR 4 =
      UVISOR_TACL_UWRITE ||| UVISOR_TACL_UREAD :=
  vmpu_fault_recovery_mpu_no_scr_case ⟨2, fun _ => [], fun _ => none, []⟩
    ⟨[], [none, none], 0⟩ 11 22 33 4 (by decide) (by decide)

/-- Writing back the value just read clears every set bit of a 32-bit
write-one-to-clear status register. -/
lemma sfsrAfterWrite_self (n : Nat) (h : n < M32) :
    sfsrAfterWrite n n = 0 := by
  unfold sfsrAfterWrite
  apply Nat.eq_of_testBit_eq
  intro i
  rw [Nat.testBit_and, Nat.testBit_xor]
  rcases Nat.lt_or_ge i 32 with hi | hi
  · have hm : (M32 - 1).testBit i = true := by
      unfold M32
      rw [Nat.testBit_two_pow_sub_one]
      simpa using hi
    rw [hm]
    cases hb : n.testBit i <;> simp
  · have hn : n.testBit i = false := by
      apply Nat.testBit_lt_two_pow
      calc n < M32 := h
        _ = 2 ^ 32 := rfl
        _ ≤ 2 ^ i := Nat.pow_le_pow_right (by omega) hi
    rw [hn]
    simp

/-- Claim C3: on a SecureFault, `vmpu_sys_mux_handler` attempts recovery
exactly when both `AUVIOL` and `SFARVALID` are set in SFSR; when recovery
succeeds it writes the read status back to SFSR — which, as the register is
write-one-to-clear, clears it — and returns the exception-return value
unchanged; in every other SecureFault case it logs the secure fault and
halts with permission denied. -/
theorem vmpu_sys_mux_handler_securefault (env : VmpuEnv) (s : MpuState)
    (ipsr_reg sfsr sfar : Nat) (readMem : Nat → Nat)
    (psp_s msp_ns psp_ns lr msp_s : Nat)
    (hid : (Int.ofNat (ipsr_reg &&& 0x1FF)) - NVIC_OFFSET = SecureFault_IRQn)
    (h32 : sfsr < M32) :
    ((vmpu_sys_mux_handler env s ipsr_reg sfsr sfar readMem psp_s msp_ns
        psp_ns lr msp_s).attemptedRecovery =
      decide (sfsr &&& (SAU_SFSR_AUVIOL_Msk ||| SAU_SFSR_SFARVALID_Msk) =
        SAU_SFSR_AUVIOL_Msk ||| SAU_SFSR_SFARVALID_Msk)) ∧
    (sfsr &&& (SAU_SFSR_AUVIOL_Msk ||| SAU_SFSR_SFARVALID_Msk) =
        SAU_SFSR_AUVIOL_Msk ||| SAU_SFSR_SFARVALID_Msk →
      (vmpu_fault_recovery_mpu env s
          (readMem ((vmpu_sys_mux_sp lr msp_s psp_s msp_ns psp_ns + 6 * 4)
            % M32))
          (vmpu_sys_mux_sp lr msp_s psp_s msp_ns psp_ns) sfar
          sfsr).recovered ≠ 0 →
      (vmpu_sys_mux_handler env s ipsr_reg sfsr sfar readMem psp_s msp_ns
          psp_ns lr msp_s).result = SysMuxResult.ret lr (some sfsr) ∧
      sfsrAfterWrite sfsr sfsr = 0) ∧
    (sfsr &&& (SAU_SFSR_AUVIOL_Msk ||| SAU_SFSR_SFARVALID_Msk) =
        SAU_SFSR_AUVIOL_Msk ||| SAU_SFSR_SFARVALID_Msk →
      (vmpu_fault_recovery_mpu env s
          (readMem ((vmpu_sys_mux_sp lr msp_s psp_s msp_ns psp_ns + 6 * 4)
            % M32))
          (vmpu_sys_mux_sp lr msp_s psp_s msp_ns psp_ns) sfar
          sfsr).recovered = 0 →
      (vmpu_sys_mux_handler env s ipsr_reg sfsr sfar readMem psp_s msp_ns
          psp_ns lr msp_s).result =
        SysMuxResult.halt (some FaultKind.secure)
          HaltCode.PERMISSION_DENIED) ∧
    (sfsr &&& (SAU_SFSR_AUVIOL_Msk ||| SAU_SFSR_SFARVALID_Msk) ≠
        SAU_SFSR_AUVIOL_Msk ||| SAU_SFSR_SFARVALID_Msk →
      (vmpu_sys_mux_handler env s ipsr_reg sfsr sfar readMem psp_s msp_ns
          psp_ns lr msp_s).result =
        SysMuxResult.halt (some FaultKind.secure)
          HaltCode.PERMISSION_DENIED) := by
  unfold vmpu_sys_mux_handler
  rw [hid]
  have h14 : ¬ (SecureFault_IRQn = NonMaskableInt_IRQn) := by decide
  have h13 : ¬ (SecureFault_IRQn = HardFault_IRQn) := by decide
  have h12 : ¬ (SecureFault_IRQn = MemoryManagement_IRQn) := by decide
  have h11 : ¬ (SecureFault_IRQn = BusFault_IRQn) := by decide
  have h10 : ¬ (SecureFault_IRQn = UsageFault_IRQn) := by decide
  rw [if_neg h14, if_neg h13, if_neg h12, if_neg h11, if_neg h10,
    if_pos rfl]
  dsimp only
  by_cases hc : sfsr &&& (SAU_SFSR_AUVIOL_Msk ||| SAU_SFSR_SFARVALID_Msk) =
      SAU_SFSR_AUVIOL_Msk ||| SAU_SFSR_SFARVALID_Msk
  · rw [if_pos hc]
    by_cases hr : (vmpu_fault_recovery_mpu env s
        (readMem ((vmpu_sys_mux_sp lr msp_s psp_s msp_ns psp_ns + 6 * 4)
          % M32))
        (vmpu_sys_mux_sp lr msp_s psp_s msp_ns psp_ns) sfar
        sfsr).recovered = 0
    · rw [if_neg (by simpa using hr)]
      refine ⟨by simp [hc], ?_, fun _ _ => rfl, fun h => absurd hc h⟩
      intro _ hr2
      exact absurd hr hr2
    · rw [if_pos (by simpa using hr)]
      refine ⟨by simp [hc], fun _ _ => ⟨rfl, sfsrAfterWrite_self sfsr h32⟩,
        ?_, fun h => absurd hc h⟩
      intro _ hr2
      exact absurd hr2 hr
  · rw [if_neg hc]
    exact ⟨by simp [hc], fun h => absurd h hc, fun h => absurd h hc,
      fun _ => rfl⟩

/-- Witness for C3: a SecureFault (IPSR 7) with `AUVIOL|SFARVALID` set and a
covering active-box region recovers, clears SFSR and returns `lr`
unchanged. -/
theorem vmpu_sys_mux_handler_securefault_witness :
    (vmpu_sys_mux_handler
      ⟨1, fun b => if b = 1 then [⟨0x30000000, 0x30000010, 7, 0⟩] else [],
       fun _ => none, []⟩
      ⟨[], [none, none], 0⟩ 7 0x48 0x30000004 (fun _ => 0) 0 0 0 5 0).result
      = SysMuxResult.ret 5 (some 0x48) ∧
    sfsrAfterWrite 0x48 0x48 = 0 :=
  (vmpu_sys_mux_handler_securefault
    ⟨1, fun b => if b = 1 then [⟨0x30000000, 0x30000010, 7, 0⟩] else [],
     fun _ => none, []⟩
    ⟨[], [none, none], 0⟩ 7 0x48 0x30000004 (fun _ => 0) 0 0 0 5 0
    (by decide) (by decide)).2.1 (by decide) (by decide)

/-- Counterexample to C9 as stated: for the NMI exception (IPSR 2, id -14)
the handler halts with not-implemented but logs no fault descriptor
(`logged = none`), unlike the five fault vectors. -/
theorem vmpu_sys_mux_handler_nmi_counterexample :
    (vmpu_sys_mux_handler ⟨0, fun _ => [], fun _ => none, []⟩ ⟨[], [], 0⟩
        2 0 0 (fun _ => 0) 0 0 0 0 0).result =
      SysMuxResult.halt none HaltCode.NOT_IMPLEMENTED := by
  decide

/-- Claim C9 (amended): for HardFault, MemManage, BusFault, UsageFault and
DebugMonitor the handler logs a fault descriptor and halts; for NMI it
halts with not-implemented without logging a fault descriptor. -/
theorem vmpu_sys_mux_handler_fatal (env : VmpuEnv) (s : MpuState)
    (ipsr_reg sfsr sfar : Nat) (readMem : Nat → Nat)
    (psp_s msp_ns psp_ns lr msp_s : Nat) :
    ((Int.ofNat (ipsr_reg &&& 0x1FF)) - NVIC_OFFSET = HardFault_IRQn →
      (vmpu_sys_mux_handler env s ipsr_reg sfsr sfar readMem psp_s msp_ns
          psp_ns lr msp_s).result =
        SysMuxResult.halt (some FaultKind.hard) HaltCode.FAULT_HARD) ∧
    ((Int.ofNat (ipsr_reg &&& 0x1FF)) - NVIC_OFFSET =
        MemoryManagement_IRQn →
      (vmpu_sys_mux_handler env s ipsr_reg sfsr sfar readMem psp_s msp_ns
          psp_ns lr msp_s).result =
        SysMuxResult.halt (some FaultKind.memmanage)
          HaltCode.FAULT_MEMMANAGE) ∧
    ((Int.ofNat (ipsr_reg &&& 0x1FF)) - NVIC_OFFSET = BusFault_IRQn →
      (vmpu_sys_mux_handler env s ipsr_reg sfsr sfar readMem psp_s msp_ns
          psp_ns lr msp_s).result =
        SysMuxResult.halt (some FaultKind.bus) HaltCode.FAULT_BUS) ∧
    ((Int.ofNat (ipsr_reg &&& 0x1FF)) - NVIC_OFFSET = UsageFault_IRQn →
      (vmpu_sys_mux_handler env s ipsr_reg sfsr sfar readMem psp_s msp_ns
          psp_ns lr msp_s).result =
        SysMuxResult.halt (some FaultKind.usage) HaltCode.FAULT_USAGE) ∧
    ((Int.ofNat (ipsr_reg &&& 0x1FF)) - NVIC_OFFSET = DebugMonitor_IRQn →
      (vmpu_sys_mux_handler env s ipsr_reg sfsr sfar readMem psp_s msp_ns
          psp_ns lr msp_s).result =
        SysMuxResult.halt (some FaultKind.debug) HaltCode.FAULT_DEBUG) ∧
    ((Int.ofNat (ipsr_reg &&& 0x1FF)) - NVIC_OFFSET = NonMaskableInt_IRQn →
      (vmpu_sys_mux_handler env s ipsr_reg sfsr sfar readMem psp_s msp_ns
          psp_ns lr msp_s).result =
        SysMuxResult.halt none HaltCode.NOT_IMPLEMENTED) := by
  refine ⟨fun h => ?_, fun h => ?_, fun h => ?_, fun h => ?_, fun h => ?_,
    fun h => ?_⟩ <;>
    (unfold vmpu_sys_mux_handler; rw [h]) <;>
    repeat rw [if_neg (by decide)]
  all_goals rw [if_pos rfl]

/-- Witness for the amended C9 at the six concrete IPSR values 3, 4, 5, 6,
12 and 2 (ids -13, -12, -11, -10, -4 and -14). -/
theorem vmpu_sys_mux_handler_fatal_witness :
    (vmpu_sys_mux_handler ⟨0, fun _ => [], fun _ => none, []⟩ ⟨[], [], 0⟩
        3 0 0 (fun _ => 0) 0 0 0 0 0).result =
      SysMuxResult.halt (some FaultKind.hard) HaltCode.FAULT_HARD ∧
    (vmpu_sys_mux_handler ⟨0, fun _ => [], fun _ => none, []⟩ ⟨[], [], 0⟩
        4 0 0 (fun _ => 0) 0 0 0 0 0).result =
      SysMuxResult.halt (some FaultKind.memmanage) HaltCode.FAULT_MEMMANAGE ∧
    (vmpu_sys_mux_handler ⟨0, fun _ => [], fun _ => none, []⟩ ⟨[], [], 0⟩
        5 0 0 (fun _ => 0) 0 0 0 0 0).result =
      SysMuxResult.halt (some FaultKind.bus) HaltCode.FAULT_BUS ∧
    (vmpu_sys_mux_handler ⟨0, fun _ => [], fun _ => none, []⟩ ⟨[], [], 0⟩
        6 0 0 (fun _ => 0) 0 0 0 0 0).result =
      SysMuxResult.halt (some FaultKind.usage) HaltCode.FAULT_USAGE ∧
    (vmpu_sys_mux_handler ⟨0, fun _ => [], fun _ => none, []⟩ ⟨[], [], 0⟩
        12 0 0 (fun _ => 0) 0 0 0 0 0).result =
      SysMuxResult.halt (some FaultKind.debug) HaltCode.FAULT_DEBUG ∧
    (vmpu_sys_mux_handler ⟨0, fun _ => [], fun _ => none, []⟩ ⟨[], [], 0⟩
        2 0 0 (fun _ => 0) 0 0 0 0 0).result =
      SysMuxResult.halt none HaltCode.NOT_IMPLEMENTED :=
  ⟨(vmpu_sys_mux_handler_fatal ⟨0, fun _ => [], fun _ => none, []⟩
      ⟨[], [], 0⟩ 3 0 0 (fun _ => 0) 0 0 0 0 0).1 (by decide),
   (vmpu_sys_mux_handler_fatal ⟨0, fun _ => [], fun _ => none, []⟩
      ⟨[], [], 0⟩ 4 0 0 (fun _ => 0) 0 0 0 0 0).2.1 (by decide),
   (vmpu_sys_mux_handler_fatal ⟨0, fun _ => [], fun _ => none, []⟩
      ⟨[], [], 0⟩ 5 0 0 (fun _ => 0) 0 0 0 0 0).2.2.1 (by decide),
   (vmpu_sys_mux_handler_fatal ⟨0, fun _ => [], fun _ => none, []⟩
      ⟨[], [], 0⟩ 6 0 0 (fun _ => 0) 0 0 0 0 0).2.2.2.1 (by decide),
   (vmpu_sys_mux_handler_fatal ⟨0, fun _ => [], fun _ => none, []⟩
      ⟨[], [], 0⟩ 12 0 0 (fun _ => 0) 0 0 0 0 0).2.2.2.2.1 (by decide),
   (vmpu_sys_mux_handler_fatal ⟨0, fun _ => [], fun _ => none, []⟩
      ⟨[], [], 0⟩ 2 0 0 (fun _ => 0) 0 0 0 0 0).2.2.2.2.2 (by decide)⟩

/-- Pushing a list of regions onto a slot cache whose dynamic pool has
enough free slots left writes them, in push order, right after the already
occupied prefix. -/
lemma vmpu_push_list_append (l : List MpuRegion) (p : Nat) :
    ∀ (stat : List (MpuRegion × Nat)) (A : List (Option (MpuRegion × Nat)))
      (m : Nat), l.length ≤ m →
      vmpu_push_list l p ⟨stat, A ++ List.replicate m none, A.length⟩ =
        ⟨stat,
         (A ++ l.map fun r => some (r, p)) ++
           List.replicate (m - l.length) none,
         A.length + l.length⟩ := by
  induction l with
  | nil =>
    intro stat A m _
    simp [vmpu_push_list]
  | cons r rs ih =>
    intro stat A m hm
    have hm1 : 1 ≤ m := le_trans (by simp) hm
    obtain ⟨m', rfl⟩ : ∃ m', m = m' + 1 := ⟨m - 1, by omega⟩
    have hlen : (A ++ List.replicate (m' + 1) (none
        (α := MpuRegion × Nat))).length = A.length + (m' + 1) := by
      simp
    have hcur : A.length < (A ++ List.replicate (m' + 1) (none
        (α := MpuRegion × Nat))).length := by
      rw [hlen]; omega
    unfold vmpu_push_list vmpu_mpu_push
    rw [if_pos (decide_eq_true hcur)]
    dsimp only
    rw [Nat.mod_eq_of_lt hcur,
      List.set_append_right _ _ (Nat.le_refl A.length), Nat.sub_self,
      List.replicate_succ, List.set_cons_zero]
    have hstep : A ++ some (r, p) :: List.replicate m' none =
        (A ++ [some (r, p)]) ++ List.replicate m' none := by
      simp
    rw [hstep]
    have hA1 : A.length + 1 = (A ++ [some (r, p)]).length := by simp
    rw [hA1, ih stat (A ++ [some (r, p)]) m' (by simpa using hm)]
    simp [List.append_assoc]
    omega

/-- The page iterator is the push loop over the page regions (`config = 1`)
at page priority 100. -/
lemma iterate_pages_eq_push_list (pages : List (Nat × Nat × Nat)) :
    ∀ s : MpuState,
      page_allocator_iterate_active_pages pages s =
        vmpu_push_list (pages.map fun t => ⟨t.1, t.2.1, 0, 1⟩) 100 s := by
  induction pages with
  | nil => intro s; rfl
  | cons t rest ih =>
    intro s
    obtain ⟨st, en, pg⟩ := t
    unfold page_allocator_iterate_active_pages vmpu_push_list
      vmpu_mem_push_page_acl_iterator
    dsimp only [List.map_cons]
    by_cases hc : (vmpu_mpu_push s ⟨st, en, 0, 1⟩ 100).1
    · rw [if_pos hc, if_pos hc, ih]
    · rw [if_neg (by simpa using hc), if_neg (by simpa using hc)]

/-- The first push after an invalidate lands in dynamic slot 0. -/
lemma vmpu_mpu_push_fresh (stat : List (MpuRegion × Nat)) (K : Nat)
    (hK : 1 ≤ K) (r : MpuRegion) (p : Nat) :
    (vmpu_mpu_push ⟨stat, List.replicate K none, 0⟩ r p).2 =
      ⟨stat, [some (r, p)] ++ List.replicate (K - 1) none, 1⟩ := by
  obtain ⟨K', rfl⟩ : ∃ K', K = K' + 1 := ⟨K - 1, by omega⟩
  unfold vmpu_mpu_push
  dsimp only
  rw [List.length_replicate, Nat.zero_mod, List.replicate_succ,
    List.set_cons_zero]
  simp

/-- Cursor-generalised restatement of `vmpu_push_list_append`. -/
lemma vmpu_push_list_append_c (l : List MpuRegion) (p : Nat)
    (stat : List (MpuRegion × Nat)) (A : List (Option (MpuRegion × Nat)))
    (m c : Nat) (hc : c = A.length) (hm : l.length ≤ m) :
    vmpu_push_list l p ⟨stat, A ++ List.replicate m none, c⟩ =
      ⟨stat,
       (A ++ l.map fun r => some (r, p)) ++
         List.replicate (m - l.length) none,
       c + l.length⟩ := by
  subst hc
  exact vmpu_push_list_append l p stat A m hm

/-- Claim C5: after `vmpu_switch(src, b)` with enough dynamic slots, the
dynamic slot cache holds, in push order, b's first (stack/context) region
at priority 255 when b is not the public box, one region per active
allocator page at priority 100, the remaining b regions at priority 2, and
— exactly when b is the public box — the box-0 regions at priority 1; the
static slots are unchanged. -/
theorem vmpu_switch_slots (env : VmpuEnv) (src : Nat) (s : MpuState) :
    (∀ b r rs, b ≠ 0 → env.boxes b = r :: rs →
      1 + env.activePages.length + rs.length ≤ s.dynSlots.length →
      vmpu_switch env src b s =
        ⟨s.staticSlots,
         ([some (r, 255)] ++
            (env.activePages.map fun t =>
              some ((⟨t.1, t.2.1, 0, 1⟩ : MpuRegion), 100)) ++
            (rs.map fun q => some (q, 2))) ++
           List.replicate
             (s.dynSlots.length -
               (1 + env.activePages.length + rs.length)) none,
         1 + env.activePages.length + rs.length⟩) ∧
    (env.activePages.length + (env.boxes 0).length ≤ s.dynSlots.length →
      vmpu_switch env src 0 s =
        ⟨s.staticSlots,
         ((env.activePages.map fun t =>
             some ((⟨t.1, t.2.1, 0, 1⟩ : MpuRegion), 100)) ++
            ((env.boxes 0).map fun q => some (q, 1))) ++
           List.replicate
             (s.dynSlots.length -
               (env.activePages.length + (env.boxes 0).length)) none,
         env.activePages.length + (env.boxes 0).length⟩) := by
  constructor
  · intro b r rs hb hbox hcap
    unfold vmpu_switch vmpu_mpu_invalidate vmpu_region_get_for_box
    rw [if_pos hb, hbox]
    dsimp only
    rw [vmpu_mpu_push_fresh s.staticSlots s.dynSlots.length (by omega) r 255,
      iterate_pages_eq_push_list,
      vmpu_push_list_append_c _ 100 s.staticSlots [some (r, 255)]
        (s.dynSlots.length - 1) 1 (by simp) (by simp; omega),
      vmpu_push_list_append_c rs 2 s.staticSlots _ _ _ (by
        simp only [List.length_append, List.length_cons, List.length_nil,
          List.length_map]) (by simp; omega)]
    simp only [List.length_map, List.map_map]
    rw [show s.dynSlots.length - 1 - env.activePages.length - rs.length =
        s.dynSlots.length - (1 + env.activePages.length + rs.length) from
      by omega]
    congr 1
  · intro hcap
    unfold vmpu_switch vmpu_mpu_invalidate vmpu_region_get_for_box
    rw [if_neg (by simp)]
    dsimp only
    rw [iterate_pages_eq_push_list,
      show (List.replicate s.dynSlots.length (none :
          Option (MpuRegion × Nat))) =
        [] ++ List.replicate s.dynSlots.length none from rfl,
      vmpu_push_list_append_c _ 100 s.staticSlots []
        s.dynSlots.length 0 rfl (by simp; omega),
      vmpu_push_list_append_c (env.boxes 0) 1 s.staticSlots _ _ _ (by
        simp only [List.length_append, List.length_nil, List.length_map])
        (by simp; omega)]
    simp only [List.length_map, List.map_map]
    rw [show s.dynSlots.length - env.activePages.length -
        (env.boxes 0).length =
        s.dynSlots.length -
          (env.activePages.length + (env.boxes 0).length) from by omega]
    congr 1
    simp [List.append_assoc, Function.comp]

/-- Witness for C5 on a four-slot pool: a switch into box 1 (two regions,
one active page) and a switch into the public box 0. -/
theorem vmpu_switch_slots_witness :
    vmpu_switch
      ⟨1, fun b => if b = 1 then [⟨10, 20, 1, 0⟩, ⟨30, 40, 2, 0⟩]
          else if b = 0 then [⟨50, 60, 3, 0⟩] else [],
       fun _ => none, [(100, 200, 7)]⟩ 0 1
      ⟨[(⟨0, 1, 0, 0⟩, 9)], [none, none, none, none], 2⟩ =
      ⟨[(⟨0, 1, 0, 0⟩, 9)],
       [some (⟨10, 20, 1, 0⟩, 255), some (⟨100, 200, 0, 1⟩, 100),
        some (⟨30, 40, 2, 0⟩, 2), none], 3⟩ ∧
    vmpu_switch
      ⟨1, fun b => if b = 1 then [⟨10, 20, 1, 0⟩, ⟨30, 40, 2, 0⟩]
          else if b = 0 then [⟨50, 60, 3, 0⟩] else [],
       fun _ => none, [(100, 200, 7)]⟩ 1 0
      ⟨[(⟨0, 1, 0, 0⟩, 9)], [none, none, none, none], 2⟩ =
      ⟨[(⟨0, 1, 0, 0⟩, 9)],
       [some (⟨100, 200, 0, 1⟩, 100), some (⟨50, 60, 3, 0⟩, 1),
        none, none], 2⟩ :=
  ⟨(vmpu_switch_slots
      ⟨1, fun b => if b = 1 then [⟨10, 20, 1, 0⟩, ⟨30, 40, 2, 0⟩]
          else if b = 0 then [⟨50, 60, 3, 0⟩] else [],
       fun _ => none, [(100, 200, 7)]⟩ 0
      ⟨[(⟨0, 1, 0, 0⟩, 9)], [none, none, none, none], 2⟩).1
      1 ⟨10, 20, 1, 0⟩ [⟨30, 40, 2, 0⟩] (by decide) rfl (by decide),
   (vmpu_switch_slots
      ⟨1, fun b => if b = 1 then [⟨10, 20, 1, 0⟩, ⟨30, 40, 2, 0⟩]
          else if b = 0 then [⟨50, 60, 3, 0⟩] else [],
       fun _ => none, [(100, 200, 7)]⟩ 1
      ⟨[(⟨0, 1, 0, 0⟩, 9)], [none, none, none, none], 2⟩).2 (by decide)⟩

/-- The 32-byte round-up stays within 31 bytes of its argument. -/
lemma regionRoundUp_le (x : Nat) : UVISOR_REGION_ROUND_UP x ≤ x + 31 :=
  le_trans (Nat.sub_le _ _) (Nat.mod_le _ _)

/-- Counterexample to C6 as stated: in scenario S1 the call returns
`bss_start = 0x2000_0440` (one guard band above the stack top), not
`0x2000_0420`, and the cursor advances to `0x2000_0540`, not to
`0x2000_0420 + round_up(200) + 32 = 0x2000_0520`. -/
theorem vmpu_acl_sram_s1_counterexample :
    (vmpu_acl_sram 0x20000000 1 200 1024 ⟨0, []⟩).bss_start = 0x20000440 ∧
    (vmpu_acl_sram 0x20000000 1 200 1024 ⟨0, []⟩).stack_pointer
      = 0x20000420 ∧
    (vmpu_acl_sram 0x20000000 1 200 1024 ⟨0, []⟩).st.pos = 0x20000540 ∧
    (vmpu_acl_sram 0x20000000 1 200 1024 ⟨0, []⟩).bss_start ≠ 0x20000420 ∧
    (vmpu_acl_sram 0x20000000 1 200 1024 ⟨0, []⟩).st.pos ≠
      0x20000420 + UVISOR_REGION_ROUND_UP 200 + 32 := by
  decide

/-- Claim C6 (amended): absent 32-bit overflow, each `vmpu_acl_sram` call
returns `bss_start = stack_top + GUARD` — so the extent from the stack
bottom to the bss end spans `stack_size + GUARD + round_up(bss_size)` — and
in scenario S1 it returns `bss_start = 0x2000_0440`,
`stack_top = 0x2000_0420`, records the stack extent
`[0x2000_0020, 0x2000_0420)` and the bss extent of 224 bytes at
`0x2000_0440`, and advances the cursor to `0x2000_0540`. -/
theorem vmpu_acl_sram_layout (cfg box_id bss_size stack_size : Nat)
    (s : SramState) (hpos : s.pos < 2 ^ 31) (hcfg : cfg < 2 ^ 31)
    (hst : stack_size < 2 ^ 28) (_hbs : bss_size < 2 ^ 28) :
    ((vmpu_acl_sram cfg box_id bss_size stack_size s).bss_start =
      (vmpu_acl_sram cfg box_id bss_size stack_size s).stack_pointer +
        UVISOR_STACK_BAND_SIZE) ∧
    vmpu_acl_sram 0x20000000 1 200 1024 ⟨0, []⟩ =
      ⟨⟨0x20000540,
        [⟨1, 0x20000020, 1024, UVISOR_TACLDEF_STACK⟩,
         ⟨1, 0x20000440, 224, UVISOR_TACLDEF_DATA⟩]⟩,
       0x20000440, 0x20000420⟩ := by
  constructor
  · have hr1 := regionRoundUp_le cfg
    have hr2 := regionRoundUp_le (UVISOR_MIN_STACK stack_size)
    have hmin : UVISOR_MIN_STACK stack_size < 2 ^ 28 := by
      unfold UVISOR_MIN_STACK UVISOR_MIN_STACK_SIZE
      omega
    have hM : M32 = 4294967296 := by norm_num [M32]
    have h31 : (2 : Nat) ^ 31 = 2147483648 := by norm_num
    have h28 : (2 : Nat) ^ 28 = 268435456 := by norm_num
    unfold vmpu_acl_sram UVISOR_STACK_BAND_SIZE
    dsimp only
    by_cases h0 : s.pos = 0
    · rw [if_pos h0, hM]
      omega
    · rw [if_neg h0, hM]
      omega
  · decide

/-- Witness for the amended C6 at small concrete arguments. -/
theorem vmpu_acl_sram_layout_witness :
    (vmpu_acl_sram 0x10000000 2 7 9 ⟨0x100, []⟩).bss_start =
      (vmpu_acl_sram 0x10000000 2 7 9 ⟨0x100, []⟩).stack_pointer +
        UVISOR_STACK_BAND_SIZE :=
  (vmpu_acl_sram_layout 0x10000000 2 7 9 ⟨0x100, []⟩ (by decide) (by decide)
    (by decide) (by decide)).1

/-- Separation of two recorded extents: the second starts at least one
guard band above the end of the first (hence strictly above its start and
without overlap). -/
def sramGap (a b : SramAcl) : Prop :=
  a.start + a.size + UVISOR_STACK_BAND_SIZE ≤ b.start

instance (a b : SramAcl) : Decidable (sramGap a b) := by
  unfold sramGap; infer_instance

/-- Rounding up never shrinks. -/
lemma regionRoundUpN_ge (x : Nat) : x ≤ regionRoundUpN x := by
  unfold regionRoundUpN
  omega

/-- Rounding up adds at most 31. -/
lemma regionRoundUpN_le (x : Nat) : regionRoundUpN x ≤ x + 31 := by
  unfold regionRoundUpN
  omega

/-- Below the 32-bit wrap, the source's round-up agrees with the wrap-free
round-up. -/
lemma regionRoundUp_eq_N (x : Nat) (h : x + 31 < M32) :
    UVISOR_REGION_ROUND_UP x = regionRoundUpN x := by
  unfold UVISOR_REGION_ROUND_UP regionRoundUpN
  rw [Nat.mod_eq_of_lt h]

/-- The wrap-free layout cursor never decreases across one call. -/
lemma sramN_pos_mono (cfg b bs ss : Nat) (s : SramState) :
    s.pos ≤ (vmpu_acl_sramN cfg b bs ss s).st.pos := by
  unfold vmpu_acl_sramN
  dsimp only
  by_cases h0 : s.pos = 0
  · rw [if_pos h0]; omega
  · rw [if_neg h0]; omega

/-- Folding a concatenation of call lists runs them in sequence. -/
lemma runSramN_append (cfg : Nat) (l1 l2 : List (Nat × Nat × Nat))
    (s : SramState) :
    runSramN cfg (l1 ++ l2) s = runSramN cfg l2 (runSramN cfg l1 s) := by
  unfold runSramN
  rw [List.foldl_append]

/-- The wrap-free layout cursor never decreases across a call sequence. -/
lemma runSramN_pos_mono (cfg : Nat) (l : List (Nat × Nat × Nat)) :
    ∀ s : SramState, s.pos ≤ (runSramN cfg l s).pos := by
  induction l with
  | nil => intro s; exact Nat.le_refl _
  | cons c cs ih =>
    intro s
    calc s.pos ≤ (vmpu_acl_sramN cfg c.1 c.2.1 c.2.2 s).st.pos :=
          sramN_pos_mono cfg c.1 c.2.1 c.2.2 s
      _ ≤ (runSramN cfg cs (vmpu_acl_sramN cfg c.1 c.2.1 c.2.2 s).st).pos :=
          ih _
      _ = (runSramN cfg (c :: cs) s).pos := rfl

/-- One `vmpu_acl_sram` call agrees with its wrap-free companion whenever
the companion's final cursor stays below `2^32`. -/
lemma sram_eq_sramN (cfg b bs ss : Nat) (s : SramState)
    (h : (vmpu_acl_sramN cfg b bs ss s).st.pos < M32) :
    vmpu_acl_sram cfg b bs ss s = vmpu_acl_sramN cfg b bs ss s := by
  have hg1 := regionRoundUpN_ge cfg
  have hg2 := regionRoundUpN_ge (UVISOR_MIN_STACK ss)
  have hg3 := regionRoundUpN_ge bs
  unfold vmpu_acl_sramN UVISOR_STACK_BAND_SIZE at h
  dsimp only at h
  unfold vmpu_acl_sram vmpu_acl_sramN UVISOR_STACK_BAND_SIZE
  dsimp only
  by_cases h0 : s.pos = 0
  · simp only [if_pos h0] at h ⊢
    rw [regionRoundUp_eq_N cfg (by omega),
      regionRoundUp_eq_N (UVISOR_MIN_STACK ss) (by omega),
      regionRoundUp_eq_N bs (by omega)]
    rw [Nat.mod_eq_of_lt (show regionRoundUpN cfg + 32 < M32 by omega)]
    rw [Nat.mod_eq_of_lt (show regionRoundUpN cfg + 32 +
      regionRoundUpN (UVISOR_MIN_STACK ss) < M32 by omega)]
    rw [Nat.mod_eq_of_lt (show regionRoundUpN cfg + 32 +
      regionRoundUpN (UVISOR_MIN_STACK ss) + 32 < M32 by omega)]
    rw [Nat.mod_eq_of_lt (show regionRoundUpN cfg + 32 +
      regionRoundUpN (UVISOR_MIN_STACK ss) + 32 + regionRoundUpN bs + 32 <
      M32 by omega)]
  · simp only [if_neg h0] at h ⊢
    rw [regionRoundUp_eq_N (UVISOR_MIN_STACK ss) (by omega),
      regionRoundUp_eq_N bs (by omega)]
    rw [Nat.mod_eq_of_lt (show s.pos +
      regionRoundUpN (UVISOR_MIN_STACK ss) < M32 by omega)]
    rw [Nat.mod_eq_of_lt (show s.pos +
      regionRoundUpN (UVISOR_MIN_STACK ss) + 32 < M32 by omega)]
    rw [Nat.mod_eq_of_lt (show s.pos +
      regionRoundUpN (UVISOR_MIN_STACK ss) + 32 + regionRoundUpN bs + 32 <
      M32 by omega)]

/-- A whole call sequence agrees with its wrap-free companion whenever the
companion's final cursor stays below `2^32`. -/
lemma runSram_eq_runSramN (cfg : Nat) (l : List (Nat × Nat × Nat)) :
    ∀ s : SramState, (runSramN cfg l s).pos < M32 →
      runSram cfg l s = runSramN cfg l s := by
  induction l with
  | nil => intro s _; rfl
  | cons c cs ih =>
    intro s h
    have hrest : (runSramN cfg cs
        (vmpu_acl_sramN cfg c.1 c.2.1 c.2.2 s).st).pos < M32 := h
    have hstep : (vmpu_acl_sramN cfg c.1 c.2.1 c.2.2 s).st.pos < M32 :=
      lt_of_le_of_lt (runSramN_pos_mono cfg cs _) hrest
    show runSram cfg cs (vmpu_acl_sram cfg c.1 c.2.1 c.2.2 s).st =
      runSramN cfg cs (vmpu_acl_sramN cfg c.1 c.2.1 c.2.2 s).st
    rw [sram_eq_sramN cfg c.1 c.2.1 c.2.2 s hstep]
    exact ih _ hrest

/-- Layout invariant of the wrap-free SRAM carving: the recorded extents
form a guard-separated chain lying fully below the cursor, each at least
one guard band above the rounded pool base, and the cursor is 0 (before
first use) or at least the base. -/
def sramInv (cfg : Nat) (s : SramState) : Prop :=
  List.Chain' sramGap s.acls ∧
  (∀ x ∈ s.acls,
    regionRoundUpN cfg + UVISOR_STACK_BAND_SIZE ≤ x.start ∧
    x.start + x.size + UVISOR_STACK_BAND_SIZE ≤ s.pos) ∧
  (s.pos = 0 ∨ regionRoundUpN cfg + UVISOR_STACK_BAND_SIZE ≤ s.pos)

/-- One wrap-free call preserves the layout invariant. -/
lemma sramInv_step (cfg b bs ss : Nat) (s : SramState)
    (h : sramInv cfg s) :
    sramInv cfg (vmpu_acl_sramN cfg b bs ss s).st := by
  obtain ⟨hch, hall, hpos⟩ := h
  unfold UVISOR_STACK_BAND_SIZE at hall hpos
  unfold sramInv vmpu_acl_sramN UVISOR_STACK_BAND_SIZE
  dsimp only
  have hp0 : s.pos ≤
      (if s.pos = 0 then regionRoundUpN cfg + 32 else s.pos) ∧
      regionRoundUpN cfg + 32 ≤
        (if s.pos = 0 then regionRoundUpN cfg + 32 else s.pos) := by
    by_cases h0 : s.pos = 0
    · simp only [if_pos h0]
      omega
    · simp only [if_neg h0]
      rcases hpos with hz | hb
      · exact absurd hz h0
      · omega
  refine ⟨?_, ?_, Or.inr (by omega)⟩
  · rw [List.chain'_append]
    refine ⟨hch, by
      simp [List.chain'_cons, List.chain'_singleton, sramGap,
        UVISOR_STACK_BAND_SIZE], ?_⟩
    intro x hx y hy
    have hx' := hall x (List.mem_of_mem_getLast? hx)
    simp only [List.head?_cons, Option.mem_def, Option.some.injEq] at hy
    subst hy
    unfold sramGap UVISOR_STACK_BAND_SIZE
    dsimp only
    omega
  · intro x hx
    rcases List.mem_append.mp hx with hold | hnew
    · have hx' := hall x hold
      constructor <;> omega
    · simp only [List.mem_cons, List.not_mem_nil, or_false] at hnew
      rcases hnew with h1 | h1 <;> subst h1 <;> dsimp only <;>
        constructor <;> omega

/-- The layout invariant holds after any wrap-free call sequence from the
fresh state. -/
lemma runSramN_inv (cfg : Nat) (l : List (Nat × Nat × Nat)) :
    ∀ s : SramState, sramInv cfg s → sramInv cfg (runSramN cfg l s) := by
  induction l with
  | nil => intro s h; exact h
  | cons c cs ih =>
    intro s h
    exact ih _ (sramInv_step cfg c.1 c.2.1 c.2.2 s h)

/-- Claim C7: across any sequence of `vmpu_acl_sram` calls (each with
`bss_size > 0`) that stays below the 32-bit wrap, the SRAM layout cursor
never decreases, and the recorded stack and bss extents are strictly
increasing, pairwise non-overlapping, and separated by at least one guard
band on both sides: consecutive extents are one guard band apart, every
extent sits at least one guard band above the rounded pool base, and every
extent ends at least one guard band below the cursor. -/
theorem vmpu_acl_sram_monotone (cfg : Nat) (pre suf : List (Nat × Nat × Nat))
    (_hb : ∀ c ∈ pre ++ suf, 0 < c.2.1)
    (hw : (runSramN cfg (pre ++ suf) ⟨0, []⟩).pos < M32) :
    (runSram cfg pre ⟨0, []⟩).pos ≤
      (runSram cfg (pre ++ suf) ⟨0, []⟩).pos ∧
    List.Chain' sramGap (runSram cfg (pre ++ suf) ⟨0, []⟩).acls ∧
    (∀ x ∈ (runSram cfg (pre ++ suf) ⟨0, []⟩).acls,
      regionRoundUpN cfg + UVISOR_STACK_BAND_SIZE ≤ x.start ∧
      x.start + x.size + UVISOR_STACK_BAND_SIZE ≤
        (runSram cfg (pre ++ suf) ⟨0, []⟩).pos) := by
  have hpre : (runSramN cfg pre ⟨0, []⟩).pos < M32 := by
    have h1 := runSramN_pos_mono cfg suf (runSramN cfg pre ⟨0, []⟩)
    rw [runSramN_append] at hw
    omega
  have e1 := runSram_eq_runSramN cfg pre ⟨0, []⟩ hpre
  have e2 := runSram_eq_runSramN cfg (pre ++ suf) ⟨0, []⟩ hw
  have hinv := runSramN_inv cfg (pre ++ suf) ⟨0, []⟩
    ⟨List.chain'_nil, by simp, Or.inl rfl⟩
  obtain ⟨hch, hall, _⟩ := hinv
  rw [e1, e2]
  refine ⟨?_, hch, hall⟩
  rw [runSramN_append]
  exact runSramN_pos_mono cfg suf _

/-- Witness for C7 on two concrete calls: box 1 then box 2. -/
theorem vmpu_acl_sram_monotone_witness :
    (runSram 0x20000000 [(1, 200, 1024)] ⟨0, []⟩).pos ≤
      (runSram 0x20000000 ([(1, 200, 1024)] ++ [(2, 64, 2048)])
        ⟨0, []⟩).pos ∧
    List.Chain' sramGap
      (runSram 0x20000000 ([(1, 200, 1024)] ++ [(2, 64, 2048)])
        ⟨0, []⟩).acls ∧
    (regionRoundUpN 0x20000000 + UVISOR_STACK_BAND_SIZE ≤
      (⟨1, 0x20000020, 1024, UVISOR_TACLDEF_STACK⟩ : SramAcl).start ∧
     (⟨1, 0x20000020, 1024, UVISOR_TACLDEF_STACK⟩ : SramAcl).start +
        (⟨1, 0x20000020, 1024, UVISOR_TACLDEF_STACK⟩ : SramAcl).size +
        UVISOR_STACK_BAND_SIZE ≤
      (runSram 0x20000000 ([(1, 200, 1024)] ++ [(2, 64, 2048)])
        ⟨0, []⟩).pos) :=
  ⟨(vmpu_acl_sram_monotone 0x20000000 [(1, 200, 1024)] [(2, 64, 2048)]
      (by decide) (by decide)).1,
   (vmpu_acl_sram_monotone 0x20000000 [(1, 200, 1024)] [(2, 64, 2048)]
      (by decide) (by decide)).2.1,
   (vmpu_acl_sram_monotone 0x20000000 [(1, 200, 1024)] [(2, 64, 2048)]
      (by decide) (by decide)).2.2
     ⟨1, 0x20000020, 1024, UVISOR_TACLDEF_STACK⟩ (by decide)⟩
